import Mathlib

/-!
Verification development for the sit-search repository (browser-based academic
Q&A assistant).  We give a shallow embedding of the retry/backoff wrappers,
the keyword document search, the answer orchestrator's document filter,
history windowing and error conversion, the scraper cache, and the live-voice
audio pipeline (playback scheduling, interruption handling, float-to-PCM
conversion), and prove the specification's testable properties about them.

JavaScript strings are modelled as Lean `String`, JS numbers used for times
and delays as `ℚ` (all operations involved are exact on the values in play),
machine 16-bit conversion as `ℤ` with explicit truncation, and asynchronous
operations as explicit call-index-to-outcome functions with a fuelled loop.
-/

/-- JS `String.prototype.toLowerCase`, modelled characterwise. -/
def strLower (s : String) : String := ⟨s.data.map Char.toLower⟩

/-- JS `String.prototype.includes`: substring containment. -/
def strContains (s pat : String) : Bool := decide (pat.data <:+: s.data)

/-- A JavaScript error value as observed by the retry wrappers and the
orchestrator: a `name` (e.g. "AbortError"), a `message`, and an optional
numeric `status` (e.g. 429). -/
structure JsError where
  name : String
  message : String
  status : Option Int
deriving DecidableEq, Repr

namespace Retry

/-- `isRateLimited` classification from `retryWithBackoff` (part_001):
`error?.status === 429 || message.includes('429') ||
message.toLowerCase().includes('rate limit') || ...includes('quota')`. -/
def isRateLimited (e : JsError) : Bool :=
  e.status == some 429 ||
  strContains e.message "429" ||
  strContains (strLower e.message) "rate limit" ||
  strContains (strLower e.message) "quota"

/-- `isServerError` classification: `status >= 500 || message.includes('500')
|| message.toLowerCase().includes('internal')`. -/
def isServerError (e : JsError) : Bool :=
  (match e.status with | some s => decide (500 ≤ s) | none => false) ||
  strContains e.message "500" ||
  strContains (strLower e.message) "internal"

/-- `isNetworkError` classification: lower-cased message contains
`network`, `fetch` or `timeout`. -/
def isNetworkError (e : JsError) : Bool :=
  strContains (strLower e.message) "network" ||
  strContains (strLower e.message) "fetch" ||
  strContains (strLower e.message) "timeout"

/-- An error is retryable when it is rate-limited, a server error, or a
network error. -/
def isRetryable (e : JsError) : Bool :=
  isRateLimited e || isServerError e || isNetworkError e

/-- The rewritten error thrown when retries end on a rate-limited failure. -/
def rateLimitRewrite : JsError :=
  ⟨"Error", "Rate limit exceeded. Please wait a moment before trying again.", none⟩

/-- One recorded backoff sleep of a `retryWithBackoff` run: the loop index
`attempt` at which the failure happened, whether that failure was classified
rate-limited, the computed `backoffMs` (which includes the random jitter), and
the actual `waitTime` slept. -/
structure DelayEntry where
  attempt : Nat
  rateLimited : Bool
  backoffMs : ℚ
  waitTime : ℚ
deriving DecidableEq, Repr

/-- Outcome of a whole retry-wrapper run: the final result (success value or
thrown error), the number of invocations of the wrapped operation, and the
sleeps taken between attempts, in order. -/
structure RunResult (T : Type) where
  result : Except JsError T
  calls : Nat
  delays : List DelayEntry
deriving Repr

/-- The body of `retryWithBackoff` (part_001) from loop index `attempt` on,
with `fuel` remaining loop iterations.  `op k` is the outcome of the
`(k+1)`-st invocation of the wrapped operation and `jitter k` stands for the
`Math.random() * 500` summand of that iteration.  The `fuel = 0` case mirrors
the trailing `throw lastError` after the loop, which is unreachable when the
function is entered with `fuel = maxRetries + 1`. -/
def retryFrom {T : Type} (op : Nat → Except JsError T) (maxRetries : Nat)
    (initialBackoff : ℚ) (jitter : Nat → ℚ) : Nat → Nat → RunResult T
  | _, 0 => ⟨.error ⟨"Error", "unreachable: loop exited without throwing", none⟩, 0, []⟩
  | attempt, fuel + 1 =>
    match op attempt with
    | .ok v => ⟨.ok v, 1, []⟩
    | .error e =>
      if !isRetryable e || attempt == maxRetries then
        if isRateLimited e then ⟨.error rateLimitRewrite, 1, []⟩
        else ⟨.error e, 1, []⟩
      else
        let backoffMs := initialBackoff * 2 ^ attempt + jitter attempt
        let waitTime := if isRateLimited e then max backoffMs 5000 else backoffMs
        let rest := retryFrom op maxRetries initialBackoff jitter (attempt + 1) fuel
        ⟨rest.result, rest.calls + 1, ⟨attempt, isRateLimited e, backoffMs, waitTime⟩ :: rest.delays⟩

/-- `retryWithBackoff(operation, maxRetries, initialBackoff)` from
src/unnamed/part_001: a `for (attempt = 0; attempt <= maxRetries; attempt++)`
loop that returns the first success, throws non-retryable errors (and the
last error once attempts are exhausted, rewriting rate-limited failures)
and otherwise sleeps `initialBackoff * 2^attempt + jitter`, with the sleep
raised to at least 5000 ms after a rate-limited failure. -/
def retryWithBackoff {T : Type} (op : Nat → Except JsError T) (maxRetries : Nat)
    (initialBackoff : ℚ) (jitter : Nat → ℚ) : RunResult T :=
  retryFrom op maxRetries initialBackoff jitter 0 (maxRetries + 1)

/-- Non-retryable classification of `withRetry` (geminiService.ts): aborts and
authentication failures are thrown immediately; everything else is retried. -/
def wrNonRetryable (e : JsError) : Bool :=
  e.name == "AbortError" || strContains e.message "API key" || e.status == some 401

/-- One recorded sleep of a `withRetry` run. -/
structure WrDelayEntry where
  attempt : Nat
  delay : ℚ
deriving DecidableEq, Repr

/-- Outcome of a `withRetry` run. -/
structure WrRunResult (T : Type) where
  result : Except JsError T
  calls : Nat
  delays : List WrDelayEntry
deriving Repr

/-- The body of `withRetry` (geminiService.ts) from loop index `attempt` on.
The `fuel = 0` case is the trailing `throw lastError`, reached when the loop
completes all `maxRetries + 1` iterations with failures; `last` carries the
error of the previous iteration. -/
def wrFrom {T : Type} (op : Nat → Except JsError T) (maxRetries : Nat)
    (delayMs : ℚ) (last : JsError) : Nat → Nat → WrRunResult T
  | _, 0 => ⟨.error last, 0, []⟩
  | attempt, fuel + 1 =>
    match op attempt with
    | .ok v => ⟨.ok v, 1, []⟩
    | .error e =>
      if wrNonRetryable e then ⟨.error e, 1, []⟩
      else if attempt < maxRetries then
        let rest := wrFrom op maxRetries delayMs e (attempt + 1) fuel
        ⟨rest.result, rest.calls + 1, ⟨attempt, delayMs * (attempt + 1)⟩ :: rest.delays⟩
      else
        let rest := wrFrom op maxRetries delayMs e (attempt + 1) fuel
        ⟨rest.result, rest.calls + 1, rest.delays⟩

/-- `withRetry(fn, maxRetries, delayMs)` from src/services/geminiService.ts:
retries everything except aborts and auth errors, sleeping
`delayMs * (attempt + 1)` (linear, no rate-limit floor) between attempts,
and rethrows the last error unchanged once attempts are exhausted. -/
def withRetry {T : Type} (op : Nat → Except JsError T) (maxRetries : Nat)
    (delayMs : ℚ) : WrRunResult T :=
  wrFrom op maxRetries delayMs ⟨"Error", "null", none⟩ 0 (maxRetries + 1)

end Retry

/-! ## Data model (src/types.ts) -/

/-- Role enum from src/types.ts. -/
inductive Role
  | PUBLIC
  | AUTHORIZED
  | ADMIN
deriving DecidableEq, Repr

/-- SourceType enum from src/types.ts. -/
inductive SourceType
  | INTERNAL
  | COLLEGE_WEB
  | EXTERNAL_WEB
deriving DecidableEq, Repr

/-- Document record from src/types.ts (optional fields not consulted by the
verified code paths are omitted). -/
structure Document where
  id : String
  title : String
  content : String
  category : String
  isRestricted : Bool
  uploadedAt : ℚ
deriving DecidableEq, Repr

/-- Citation record from src/types.ts. -/
structure Citation where
  url : Option String
  title : String
  sourceType : SourceType
  snippet : Option String
deriving DecidableEq, Repr

/-! ## Keyword search (src/services/databaseService.ts) and the
orchestrator's document filter (generateAnswer variants) -/

/-- JS `String.prototype.split` with a separator predicate over the character
list.  `splitOnPred p l` never returns an empty outer list and, like the JS
`split`, keeps empty fields (e.g. splitting `"a  b"` on `' '` yields
`["a", "", "b"]`). -/
def splitOnPred (p : Char → Bool) : List Char → List (List Char)
  | [] => [[]]
  | c :: cs =>
    if p c then [] :: splitOnPred p cs
    else
      match splitOnPred p cs with
      | [] => [[c]]
      | t :: ts => (c :: t) :: ts

/-- JS `query.toLowerCase().split(' ')` as a list of tokens. -/
def jsSplitSpace (s : String) : List String :=
  (splitOnPred (fun c => c == ' ') (strLower s).data).map List.asString

/-- The keywords a query contributes: space-split tokens of the lower-cased
query of length strictly greater than 2 (databaseService.searchDocuments and
geminiService.generateAnswer build exactly this list). -/
def queryKeywords (query : String) : List String :=
  (jsSplitSpace query).filter (fun k => k.length > 2)

/-- `searchDocuments(query)` from src/services/databaseService.ts, applied to
an explicit document list (the stored documents): keeps every document whose
lower-cased `title + ' ' + content` contains some keyword. -/
def searchDocuments (query : String) (docs : List Document) : List Document :=
  let keywords := queryKeywords query
  docs.filter fun doc =>
    let content := strLower (doc.title ++ " " ++ doc.content)
    keywords.any fun k => strContains content k

/-- Modelled from the spec: the claimed search behaviour, following the
claim's words — a document qualifies when its lower-cased title or content
contains at least one whitespace-separated token of the query of length
strictly greater than 2. -/
def specSearchWhitespace (query : String) (docs : List Document) : List Document :=
  let toks := ((splitOnPred Char.isWhitespace (strLower query).data).map
    List.asString).filter (fun k => k.length > 2)
  docs.filter fun doc =>
    toks.any fun k =>
      strContains (strLower doc.title) k || strContains (strLower doc.content) k

/-- The claimed search behaviour with the split corrected to the code's
single-space split: lower-cased title or content contains at least one
space-separated token of length strictly greater than 2. -/
def specMatchSpace (query : String) (doc : Document) : Bool :=
  (queryKeywords query).any fun k =>
    strContains (strLower doc.title) k || strContains (strLower doc.content) k

/-- Keyword match of the geminiService.ts `generateAnswer` document filter:
`doc.content.toLowerCase().includes(k) || doc.title.toLowerCase().includes(k)`
over the query keywords. -/
def docMatchGS (query : String) (doc : Document) : Bool :=
  (queryKeywords query).any fun k =>
    strContains (strLower doc.content) k || strContains (strLower doc.title) k

/-- `relevantDocs` filter of geminiService.ts `generateAnswer`: a restricted
document is dropped for the PUBLIC role, otherwise keyword match decides. -/
def relevantDocsGS (query : String) (role : Role) (docs : List Document) : List Document :=
  docs.filter fun doc =>
    if role == Role.PUBLIC && doc.isRestricted then false
    else docMatchGS query doc

/-- Keyword match of the part_001 `generateAnswer` filter: the length check
sits inside the `some`, `keywords.some(k => k.length > 2 && (...))`. -/
def docMatchP1 (query : String) (doc : Document) : Bool :=
  (jsSplitSpace query).any fun k =>
    k.length > 2 &&
      (strContains (strLower doc.content) k || strContains (strLower doc.title) k)

/-- `relevantDocs` filter of src/unnamed/part_001 `generateAnswer`. -/
def relevantDocsP1 (query : String) (role : Role) (docs : List Document) : List Document :=
  docs.filter fun doc =>
    if role == Role.PUBLIC && doc.isRestricted then false
    else docMatchP1 query doc

/-! ## History windowing and request contents (generateAnswer variants) -/

/-- A conversation history entry as passed to `generateAnswer`. -/
structure ChatMessage where
  role : String
  content : String
deriving DecidableEq, Repr

/-- One element of the `contents` array sent to the generation API. -/
structure ContentItem where
  role : String
  text : String
deriving DecidableEq, Repr

/-- Mapping of a history entry into a request content item:
`role: h.role === 'user' ? 'user' : 'model'`. -/
def toContent (h : ChatMessage) : ContentItem :=
  ⟨if h.role == "user" then "user" else "model", h.content⟩

/-- The trailing `{ role: 'user', parts: [{ text: query }] }` item. -/
def queryItem (q : String) : ContentItem := ⟨"user", q⟩

/-- JS `arr.slice(-k)`: the last `k` elements (all of them when the array is
shorter). -/
def jsSliceLast {α : Type} (l : List α) (k : Nat) : List α :=
  l.drop (l.length - k)

/-- Request contents built by the main geminiService.ts `generateAnswer`:
`history.slice(-10)` mapped, followed by the current query. -/
def contentsGS (history : List ChatMessage) (query : String) : List ContentItem :=
  (jsSliceLast history 10).map toContent ++ [queryItem query]

/-- Request contents built by the part_001 `generateAnswer`:
`history.slice(-20)` mapped, followed by the current query. -/
def contentsP1 (history : List ChatMessage) (query : String) : List ContentItem :=
  (jsSliceLast history 20).map toContent ++ [queryItem query]

/-- Request contents built by the second geminiService.ts `generateAnswer`
variant (the one without history limiting): the whole history mapped,
followed by the current query. -/
def contentsGS2 (history : List ChatMessage) (query : String) : List ContentItem :=
  history.map toContent ++ [queryItem query]

/-! ## Answer orchestrator result and error conversion
(generateAnswer in src/services/geminiService.ts and src/unnamed/part_001) -/

/-- The `{text, citations, needsWebSearchApproval}` result of `generateAnswer`. -/
structure GenResult where
  text : String
  citations : List Citation
  needsWebSearchApproval : Bool
deriving DecidableEq, Repr

/-- A `chunk.web` grounding entry of the generation API response. -/
structure WebChunk where
  title : Option String
  uri : Option String
deriving DecidableEq, Repr

/-- The part of an API response `generateAnswer` consumes: the text (possibly
empty/absent) and the grounding chunks (each possibly without a `web` field). -/
structure ApiResponse where
  text : Option String
  grounding : List (Option WebChunk)
deriving DecidableEq, Repr

/-- Web citations extracted from grounding chunks by the main geminiService.ts
`generateAnswer` (`title: chunk.web.title || "Web Source"`, snippet mirrors the
title). -/
def webCitationsGS (grounding : List (Option WebChunk)) : List Citation :=
  grounding.filterMap fun chunk =>
    match chunk with
    | some w => some ⟨w.uri, w.title.getD "Web Source", SourceType.EXTERNAL_WEB, w.title⟩
    | none => none

/-- Internal citations of the main geminiService.ts `generateAnswer`: one per
relevant document, snippet `doc.content.substring(0, 100) + "..."`. -/
def internalCitationsGS (relevantDocs : List Document) : List Citation :=
  relevantDocs.map fun d =>
    ⟨none, d.title, SourceType.INTERNAL, some (d.content.take 100 ++ "...")⟩

/-- The error classification of the main geminiService.ts `generateAnswer`
catch block (API key / 429-or-rate / network-or-fetch / generic). -/
def gsErrorMessage (e : JsError) : String :=
  if strContains e.message "API key" then
    "API key error. Please check your configuration."
  else if strContains e.message "429" || strContains e.message "rate" then
    "Too many requests. Please wait a moment and try again."
  else if strContains e.message "network" || strContains e.message "fetch" then
    "Network error. Please check your internet connection."
  else
    "An error occurred while processing your request."

/-- `generateAnswer` from src/services/geminiService.ts (main variant), with
the outcome of the retried `ai.models.generateContent` call and the state of
the abort signal after it passed as explicit parameters.  The result type is
`Except JsError GenResult` so that an uncaught exception would show up as
`.error`; the function's own catch block converts every failure into an
`.ok` result carrying a user-facing message and no citations. -/
def generateAnswerGS (query : String) (role : Role) (documents : List Document)
    (apiResult : Except JsError ApiResponse) (abortedAfter : Bool) :
    Except JsError GenResult :=
  let relevantDocs := relevantDocsGS query role documents
  let attempt : Except JsError GenResult :=
    match apiResult with
    | .error e => .error e
    | .ok resp =>
      if abortedAfter then .error ⟨"Error", "Request was cancelled", none⟩
      else
        let text := resp.text.getD "I couldn't generate a response. Please try again."
        .ok ⟨text, webCitationsGS resp.grounding ++ internalCitationsGS relevantDocs, false⟩
  match attempt with
  | .ok r => .ok r
  | .error e =>
    if e.name == "AbortError" || e.message == "Request was cancelled" then
      .ok ⟨"Request was cancelled.", [], false⟩
    else
      .ok ⟨"⚠️ **Error**\n\n" ++ gsErrorMessage e, [], false⟩

/-- Web citations of the part_001 `generateAnswer` (no snippet field set). -/
def webCitationsP1 (grounding : List (Option WebChunk)) : List Citation :=
  grounding.filterMap fun chunk =>
    match chunk with
    | some w => some ⟨w.uri, w.title.getD "Web Result", SourceType.EXTERNAL_WEB, none⟩
    | none => none

/-- Internal citations of the part_001 `generateAnswer`. -/
def internalCitationsP1 (relevantDocs : List Document) : List Citation :=
  relevantDocs.map fun d =>
    ⟨none, d.title, SourceType.INTERNAL, some "Verified Internal Record"⟩

/-- The `citations.filter((v, i, a) => a.findIndex(t => t.url === v.url &&
t.title === v.title) === i)` de-duplication: keep the first citation for each
`(url, title)` pair. -/
def dedupCitations (l : List Citation) : List Citation :=
  (l.foldl (fun acc c =>
    if acc.any (fun t => t.url == c.url && t.title == c.title) then acc
    else acc ++ [c]) [])

/-- The error classification of the part_001 `generateAnswer` catch block
(rate limit / API key / network / server / generic-with-message). -/
def p1ErrorMessage (e : JsError) : String :=
  if strContains e.message "Rate limit" || strContains e.message "429" then
    "**Rate Limit Reached**: The API is currently busy. Please wait a moment and try again."
  else if strContains e.message "API key" then
    "**Configuration Error**: The API key is not properly configured."
  else if strContains e.message "network" || strContains e.message "fetch" then
    "**Network Error**: Unable to connect to the server. Please check your internet connection."
  else if (match e.status with | some s => decide (500 ≤ s) | none => false) then
    "**Server Error**: The Gemini service is temporarily unavailable. Please try again later."
  else
    "**Error**: " ++ e.message ++ "\n\n*If this persists, please refresh the page and try again.*"

/-- `generateAnswer` from src/unnamed/part_001, with the outcome of the
retried generation call passed explicitly. -/
def generateAnswerP1 (query : String) (role : Role) (documents : List Document)
    (apiResult : Except JsError ApiResponse) : Except JsError GenResult :=
  let relevantDocs := relevantDocsP1 query role documents
  match apiResult with
  | .ok resp =>
    let text := resp.text.getD ""
    let citations := webCitationsP1 resp.grounding ++ internalCitationsP1 relevantDocs
    let needsApproval := strContains text "Do you want me to search the wider web?" ||
      strContains text "search the wider web"
    .ok ⟨text, dedupCitations citations, needsApproval⟩
  | .error e => .ok ⟨p1ErrorMessage e, [], false⟩

/-! ## Scraper cache (src/services/storageService.ts) -/

/-- A cached page entry: raw content, extracted data (left abstract — the DOM
extraction is outside the model) and the `Date.now()` timestamp of the fetch. -/
structure CachedPage (α : Type) where
  content : String
  extractedData : α
  scrapedAt : ℚ
deriving DecidableEq, Repr

/-- The `{success, data, fromCache, error}` result of `scrapePage` (the JS
object leaves `fromCache` undefined on the failure path, modelled as `false`). -/
structure ScrapedResult (α : Type) where
  success : Bool
  data : Option α
  fromCache : Bool
  error : Option String
deriving DecidableEq, Repr

/-- `CACHE_DURATION_MS = 30 * 60 * 1000` (30 minutes). -/
def CACHE_DURATION_MS : ℚ := 30 * 60 * 1000

/-- One `scrapePage` call: its returned result, the page cache afterwards, and
whether a network fetch was performed. -/
structure ScrapeStep (α : Type) where
  result : ScrapedResult α
  cache : List (String × CachedPage α)
  fetched : Bool
deriving Repr

/-- `pageCache.get(url)`. -/
def cacheGet {α : Type} (cache : List (String × CachedPage α)) (url : String) :
    Option (CachedPage α) :=
  (cache.find? (fun p => p.1 == url)).map (·.2)

/-- `pageCache.set(url, entry)`: one entry per key. -/
def cacheSet {α : Type} (cache : List (String × CachedPage α)) (url : String)
    (page : CachedPage α) : List (String × CachedPage α) :=
  (url, page) :: cache.filter (fun p => !(p.1 == url))

/-- `scrapePage(url, forceRefresh)` from src/services/storageService.ts.
`now` stands for `Date.now()` and `fetchOutcome` for the outcome
`fetchWithProxy` + `extractDataFromHTML` would produce if a fetch happens
(html together with its extraction, or the thrown error).  If a cached entry
exists, `forceRefresh` is false, and the entry's age is strictly below the
TTL, the cached extraction is returned with `fromCache: true` and no fetch
occurs; otherwise a fetch is performed and, on success, the cache updated. -/
def scrapePage {α : Type} (cache : List (String × CachedPage α)) (url : String)
    (forceRefresh : Bool) (now : ℚ) (fetchOutcome : Except JsError (String × α)) :
    ScrapeStep α :=
  let doFetch : ScrapeStep α :=
    match fetchOutcome with
    | .ok (html, extracted) =>
      ⟨⟨true, some extracted, false, none⟩,
        cacheSet cache url ⟨html, extracted, now⟩, true⟩
    | .error e => ⟨⟨false, none, false, some e.message⟩, cache, true⟩
  match cacheGet cache url with
  | some cached =>
    if !forceRefresh && now - cached.scrapedAt < CACHE_DURATION_MS then
      ⟨⟨true, some cached.extractedData, true, none⟩, cache, false⟩
    else doFetch
  | none => doFetch

/-! ## Live-voice playback scheduling (second LiveVoiceInterface.tsx variant) -/

/-- Playback scheduling state of the live-voice `onmessage` handler:
`nextStartTimeRef` and the list of `(startTime, duration)` pairs passed to
`source.start` so far, in scheduling order. -/
structure PlaybackState where
  nextStartTime : ℚ
  scheduled : List (ℚ × ℚ)
deriving DecidableEq, Repr

/-- Scheduling one inbound audio frame (LiveVoiceInterface.tsx, second
variant, `onmessage`): `nextStartTime = max(nextStartTime, ctx.currentTime)`,
`source.start(nextStartTime)`, `nextStartTime += audioBuffer.duration`. -/
def scheduleFrame (st : PlaybackState) (ctxTime duration : ℚ) : PlaybackState :=
  let ns := max st.nextStartTime ctxTime
  ⟨ns + duration, st.scheduled ++ [(ns, duration)]⟩

/-- Scheduling a sequence of frames in arrival order; each frame carries the
output context's current time at its arrival and its decoded duration. -/
def scheduleFrames (st : PlaybackState) : List (ℚ × ℚ) → PlaybackState
  | [] => st
  | f :: fs => scheduleFrames (scheduleFrame st f.1 f.2) fs

/-- The component mounts with `nextStartTimeRef.current = 0` and nothing
scheduled. -/
def initialPlayback : PlaybackState := ⟨0, []⟩

/-! ## Live-voice queue and interruption (first LiveVoiceInterface.tsx variant) -/

/-- Status values of the first LiveVoiceInterface.tsx variant. -/
inductive VStatus
  | initializing
  | connecting
  | listening
  | processing
  | speaking
  | error
deriving DecidableEq, Repr

/-- The mutable refs the first variant's playback path manipulates, with audio
buffers abstracted to their durations. -/
structure VoiceState where
  queue : List ℚ
  isPlaying : Bool
  currentSource : Option ℚ
  status : VStatus
deriving DecidableEq, Repr

/-- `playNextInQueue`: with an empty queue, mark not playing and fall back
from `speaking` to `listening`; otherwise shift the head buffer, mark playing
and `speaking`, and start it as the current source. -/
def playNextInQueue (st : VoiceState) : VoiceState :=
  if st.queue.isEmpty then
    { st with
      isPlaying := false
      status := if st.status == VStatus.speaking then VStatus.listening else st.status }
  else
    { queue := st.queue.tail
      isPlaying := true
      currentSource := st.queue.head?
      status := VStatus.speaking }

/-- `enqueueAudio`: a frame that failed to decode (`none`) is dropped;
otherwise the buffer is appended to the queue and playback started if idle. -/
def enqueueAudio (st : VoiceState) (decoded : Option ℚ) : VoiceState :=
  match decoded with
  | none => st
  | some b =>
    let st' := { st with queue := st.queue ++ [b] }
    if !st'.isPlaying then playNextInQueue st' else st'

/-- `stopAudio`: stop the current source, clear the queue, mark not playing. -/
def stopAudio (st : VoiceState) : VoiceState :=
  { st with currentSource := none, queue := [], isPlaying := false }

/-- The first variant's `onmessage` handler restricted to its state effects:
enqueue every decoded audio part in order, then, if the message carries
`serverContent.interrupted`, stop all audio and return to `listening`. -/
def onMessage (st : VoiceState) (parts : List (Option ℚ)) (interrupted : Bool) :
    VoiceState :=
  let st1 := parts.foldl enqueueAudio st
  if interrupted then { stopAudio st1 with status := VStatus.listening }
  else st1

/-! ## Float-to-PCM conversion (LiveVoiceInterface.tsx) -/

/-- JS assignment of a (finite, in-range) number to an `Int16Array` element:
truncation toward zero. -/
def jsTruncate (q : ℚ) : ℤ := if q < 0 then ⌈q⌉ else ⌊q⌋

/-- `floatTo16BitPCM` from the first LiveVoiceInterface.tsx variant: clamp
each sample to [-1, 1], scale negative samples by 0x8000 = 32768 and
non-negative ones by 0x7FFF = 32767. -/
def floatTo16BitPCM (samples : List ℚ) : List ℤ :=
  samples.map fun x =>
    let s := max (-1) (min 1 x)
    jsTruncate (if s < 0 then s * 32768 else s * 32767)

/-- The `Int16Array` built by `createBlob` in the second LiveVoiceInterface.tsx
variant: clamp to [-1, 1], scale every sample by 32767. -/
def createBlobInt16 (samples : List ℚ) : List ℤ :=
  samples.map fun x => jsTruncate (max (-1) (min 1 x) * 32767)

/-! ## Concrete test data for witnesses and counterexamples -/

/-- A retryable (server) error. -/
def serverErr : JsError := ⟨"Error", "Internal Server Error 500", some 500⟩

/-- A non-retryable (authentication) error, for both wrapper variants. -/
def authErr : JsError := ⟨"Error", "Invalid API key", some 400⟩

/-- A rate-limited error. -/
def err429 : JsError := ⟨"Error", "Too many requests: 429", some 429⟩

/-- An operation failing twice with a server error, then succeeding with 7. -/
def testOpRWB : Nat → Except JsError Nat :=
  fun k => if k < 2 then .error serverErr else .ok 7

/-- An operation that always fails with an authentication error. -/
def testOpAuth : Nat → Except JsError Nat := fun _ => .error authErr

/-- An operation that always fails rate-limited. -/
def testOp429 : Nat → Except JsError Nat := fun _ => .error err429

/-- A 21-message history whose oldest message is distinguishable. -/
def hist21 : List ChatMessage := ⟨"user", "m0"⟩ :: List.replicate 20 ⟨"user", "x"⟩

/-- A query whose only space-separated token contains an embedded newline. -/
def wsQuery : String := "abc\ndef"

/-- A document whose content contains the whitespace-separated token `abc`
of `wsQuery` but not the space-separated token `abc\ndef`. -/
def wsDoc : Document := ⟨"d1", "t", "abc xyz", "General", false, 0⟩

/-- Spec end-to-end scenario example 1: an unrestricted fees document. -/
def feesDoc : Document := ⟨"doc-fees", "Fees", "Hostel fee is 90000", "Fees", false, 0⟩

/-- Spec end-to-end scenario example 1: a restricted student-list document. -/
def usnDoc : Document := ⟨"doc-usn", "USN list", "1SI24MC001 John", "Students", true, 0⟩

/-! ## Theorems -/

theorem jsTruncate_le (q : ℚ) (n : ℤ) (h : q ≤ (n : ℚ)) : jsTruncate q ≤ n := by
  unfold jsTruncate
  split
  · exact Int.ceil_le.mpr h
  · exact_mod_cast le_trans (Int.floor_le q) h

theorem le_jsTruncate (q : ℚ) (n : ℤ) (h : (n : ℚ) ≤ q) : n ≤ jsTruncate q := by
  unfold jsTruncate
  split
  · exact_mod_cast le_trans h (Int.le_ceil q)
  · exact Int.le_floor.mpr h

/-- C3: for frames arriving in order [A, B, C], with any context times and any
buffer durations, the playback schedule of the live-voice `onmessage` handler
starts B no earlier than A's computed end time and C no earlier than B's, so
buffers play in arrival order and never overlap on the output node. -/
theorem playback_schedule_no_overlap (tA dA tB dB tC dC : ℚ) :
    ∃ sA sB sC,
      (scheduleFrames initialPlayback [(tA, dA), (tB, dB), (tC, dC)]).scheduled
        = [(sA, dA), (sB, dB), (sC, dC)] ∧ sA + dA ≤ sB ∧ sB + dB ≤ sC := by
  refine ⟨max 0 tA, max (max 0 tA + dA) tB, max (max (max 0 tA + dA) tB + dB) tC,
    ?_, le_max_left _ _, le_max_left _ _⟩
  simp [scheduleFrames, scheduleFrame, initialPlayback]

/-- C4: after an interruption signal is processed by the live-voice
`onmessage` handler, the playback queue is empty, nothing is playing, no
current source remains, and the status is `listening` (not `error`), for any
prior session state and any audio parts carried by the same message. -/
theorem interruption_clears_queue (st : VoiceState) (parts : List (Option ℚ)) :
    (onMessage st parts true).queue = [] ∧
    (onMessage st parts true).isPlaying = false ∧
    (onMessage st parts true).currentSource = none ∧
    (onMessage st parts true).status = VStatus.listening ∧
    (onMessage st parts true).status ≠ VStatus.error := by
  simp [onMessage, stopAudio]

/-- C10: the float-to-PCM conversions clamp each sample to [-1, 1] and scale
(`floatTo16BitPCM`: negatives by 32768, non-negatives by 32767;
`createBlob`: everything by 32767), so the output has the same length as the
input and every output element lies in the 16-bit signed range
[-32768, 32767]. -/
theorem pcm_conversion_range (samples : List ℚ) :
    (floatTo16BitPCM samples).length = samples.length ∧
    (createBlobInt16 samples).length = samples.length ∧
    (∀ y ∈ floatTo16BitPCM samples, -32768 ≤ y ∧ y ≤ 32767) ∧
    (∀ y ∈ createBlobInt16 samples, -32768 ≤ y ∧ y ≤ 32767) := by
  refine ⟨List.length_map _ _, List.length_map _ _, ?_, ?_⟩
  · intro y hy
    simp only [floatTo16BitPCM, List.mem_map] at hy
    obtain ⟨x, -, rfl⟩ := hy
    have h1 : (-1 : ℚ) ≤ max (-1) (min 1 x) := le_max_left _ _
    have h2 : max (-1 : ℚ) (min 1 x) ≤ 1 := max_le (by norm_num) (min_le_left _ _)
    set s := max (-1 : ℚ) (min 1 x) with hs
    by_cases hneg : s < 0
    · rw [if_pos hneg]
      exact ⟨le_jsTruncate _ _ (by push_cast; linarith),
        jsTruncate_le _ _ (by push_cast; linarith)⟩
    · rw [if_neg hneg]
      push_neg at hneg
      exact ⟨le_jsTruncate _ _ (by push_cast; linarith),
        jsTruncate_le _ _ (by push_cast; linarith)⟩
  · intro y hy
    simp only [createBlobInt16, List.mem_map] at hy
    obtain ⟨x, -, rfl⟩ := hy
    have h1 : (-1 : ℚ) ≤ max (-1) (min 1 x) := le_max_left _ _
    have h2 : max (-1 : ℚ) (min 1 x) ≤ 1 := max_le (by norm_num) (min_le_left _ _)
    exact ⟨le_jsTruncate _ _ (by push_cast; nlinarith),
      jsTruncate_le _ _ (by push_cast; nlinarith)⟩

/-- Witness for C10 at a concrete sample list and a concrete output element. -/
theorem pcm_conversion_range_check :
    (-32768 : ℤ) ∈ floatTo16BitPCM [-2, 0, 1] ∧
    (floatTo16BitPCM [-2, 0, 1]).length = 3 ∧
    ((-32768 : ℤ) ≤ -32768 ∧ (-32768 : ℤ) ≤ 32767) := by
  have hmem : (-32768 : ℤ) ∈ floatTo16BitPCM [-2, 0, 1] := by
    norm_num [floatTo16BitPCM, jsTruncate, Int.ceil_neg]
  have h := pcm_conversion_range [-2, 0, 1]
  exact ⟨hmem, h.1, (h.2.2.1 _ hmem).1, (h.2.2.1 _ hmem).2⟩

/-- C8: after a first `scrapePage(url)` call that fetches successfully, a
second call with `forceRefresh` false whose age `t1 - t0` is below the
30-minute TTL returns the cached extraction with `fromCache = true` and
performs no fetch, while a call whose age reaches or exceeds the TTL performs
a fresh fetch (and does not report `fromCache`). -/
theorem scrape_cache_ttl {α : Type} (url : String) (t0 t1 t2 : ℚ) (html : String)
    (d : α) (fetch2 fetch3 : Except JsError (String × α))
    (hfresh : t1 - t0 < CACHE_DURATION_MS)
    (hstale : CACHE_DURATION_MS ≤ t2 - t0) :
    (scrapePage ([] : List (String × CachedPage α)) url false t0 (.ok (html, d))).fetched
      = true ∧
    (scrapePage (scrapePage ([] : List (String × CachedPage α)) url false t0
        (.ok (html, d))).cache url false t1 fetch2).fetched = false ∧
    (scrapePage (scrapePage ([] : List (String × CachedPage α)) url false t0
        (.ok (html, d))).cache url false t1 fetch2).result.fromCache = true ∧
    (scrapePage (scrapePage ([] : List (String × CachedPage α)) url false t0
        (.ok (html, d))).cache url false t1 fetch2).result.data = some d ∧
    (scrapePage (scrapePage ([] : List (String × CachedPage α)) url false t0
        (.ok (html, d))).cache url false t2 fetch3).fetched = true ∧
    (scrapePage (scrapePage ([] : List (String × CachedPage α)) url false t0
        (.ok (html, d))).cache url false t2 fetch3).result.fromCache = false := by
  have hcache : (scrapePage ([] : List (String × CachedPage α)) url false t0
      (.ok (html, d))).cache = [(url, ⟨html, d, t0⟩)] := by
    simp [scrapePage, cacheGet, cacheSet]
  have hget : cacheGet [(url, (⟨html, d, t0⟩ : CachedPage α))] url
      = some ⟨html, d, t0⟩ := by
    simp [cacheGet]
  have hstale' : ¬(t2 - t0 < CACHE_DURATION_MS) := not_lt.mpr hstale
  refine ⟨by simp [scrapePage, cacheGet], ?_, ?_, ?_, ?_, ?_⟩
  · rw [hcache]; simp [scrapePage, hget, hfresh]
  · rw [hcache]; simp [scrapePage, hget, hfresh]
  · rw [hcache]; simp [scrapePage, hget, hfresh]
  · rw [hcache]
    simp only [scrapePage, hget]
    rw [if_neg (by simpa using hstale')]
    match fetch3 with
    | .ok (h2, d2) => rfl
    | .error e => rfl
  · rw [hcache]
    simp only [scrapePage, hget]
    rw [if_neg (by simpa using hstale')]
    match fetch3 with
    | .ok (h2, d2) => rfl
    | .error e => rfl

/-- Witness for C8 at concrete times and a concrete page. -/
theorem scrape_cache_ttl_check :
    ((1000 : ℚ) - 0 < CACHE_DURATION_MS) ∧ (CACHE_DURATION_MS ≤ (1800000 : ℚ) - 0) ∧
    ((scrapePage ([] : List (String × CachedPage Nat)) "u" false 0 (.ok ("h", 5))).fetched
        = true ∧
      (scrapePage (scrapePage ([] : List (String × CachedPage Nat)) "u" false 0
          (.ok ("h", 5))).cache "u" false 1000 (.error ⟨"Error", "down", none⟩)).fetched
        = false ∧
      (scrapePage (scrapePage ([] : List (String × CachedPage Nat)) "u" false 0
          (.ok ("h", 5))).cache "u" false 1000
          (.error ⟨"Error", "down", none⟩)).result.fromCache = true ∧
      (scrapePage (scrapePage ([] : List (String × CachedPage Nat)) "u" false 0
          (.ok ("h", 5))).cache "u" false 1000
          (.error ⟨"Error", "down", none⟩)).result.data = some 5 ∧
      (scrapePage (scrapePage ([] : List (String × CachedPage Nat)) "u" false 0
          (.ok ("h", 5))).cache "u" false 1800000
          (.error ⟨"Error", "down", none⟩)).fetched = true ∧
      (scrapePage (scrapePage ([] : List (String × CachedPage Nat)) "u" false 0
          (.ok ("h", 5))).cache "u" false 1800000
          (.error ⟨"Error", "down", none⟩)).result.fromCache = false) :=
  ⟨by norm_num [CACHE_DURATION_MS], by norm_num [CACHE_DURATION_MS],
    scrape_cache_ttl "u" 0 1000 1800000 "h" 5 _ _
      (by norm_num [CACHE_DURATION_MS]) (by norm_num [CACHE_DURATION_MS])⟩

namespace Retry

theorem isRateLimited_false_of_not_retryable {e : JsError}
    (h : isRetryable e = false) : isRateLimited e = false := by
  unfold isRetryable at h
  rcases Bool.or_eq_false_iff.mp h with ⟨h1, -⟩
  rcases Bool.or_eq_false_iff.mp h1 with ⟨h2, -⟩
  exact h2

theorem retryFrom_success {T : Type} (op : Nat → Except JsError T) (mr : Nat)
    (ib : ℚ) (jit : Nat → ℚ) (v : T) :
    ∀ (m a : Nat),
      (∀ k, k < m → ∃ e, op (a + k) = .error e ∧ isRetryable e = true) →
      op (a + m) = .ok v → a + m ≤ mr →
      (retryFrom op mr ib jit a (mr + 1 - a)).result = .ok v ∧
      (retryFrom op mr ib jit a (mr + 1 - a)).calls = m + 1 := by
  intro m
  induction m with
  | zero =>
    intro a _ hok hle
    rw [Nat.add_zero] at hok
    obtain ⟨f, hf⟩ : ∃ f, mr + 1 - a = f + 1 := ⟨mr - a, by omega⟩
    rw [hf]
    simp [retryFrom, hok]
  | succ m ih =>
    intro a hfail hok hle
    obtain ⟨e, he, hr⟩ := hfail 0 (Nat.succ_pos m)
    rw [Nat.add_zero] at he
    obtain ⟨f, hf⟩ : ∃ f, mr + 1 - a = f + 1 := ⟨mr - a, by omega⟩
    have hane : a ≠ mr := by omega
    have hne : (a == mr) = false := by simpa using hane
    have hfail' : ∀ k, k < m → ∃ e2, op (a + 1 + k) = .error e2 ∧ isRetryable e2 = true := by
      intro k hk
      have h2 := hfail (k + 1) (by omega)
      rwa [show a + (k + 1) = a + 1 + k by omega] at h2
    have hok' : op (a + 1 + m) = .ok v := by
      rwa [show a + (m + 1) = a + 1 + m by omega] at hok
    have hih := ih (a + 1) hfail' hok' (by omega)
    rw [show mr + 1 - (a + 1) = f by omega] at hih
    rw [hf]
    simp only [retryFrom, he, hr, hne, Bool.not_true, Bool.or_false, Bool.false_eq_true,
      if_false]
    exact ⟨hih.1, by rw [hih.2]⟩

end Retry

namespace Retry

theorem wrFrom_success {T : Type} (op : Nat → Except JsError T) (mr : Nat)
    (dm : ℚ) (v : T) :
    ∀ (m a : Nat) (last : JsError),
      (∀ k, k < m → ∃ e, op (a + k) = .error e ∧ wrNonRetryable e = false) →
      op (a + m) = .ok v → a + m ≤ mr →
      (wrFrom op mr dm last a (mr + 1 - a)).result = .ok v ∧
      (wrFrom op mr dm last a (mr + 1 - a)).calls = m + 1 := by
  intro m
  induction m with
  | zero =>
    intro a last _ hok hle
    rw [Nat.add_zero] at hok
    obtain ⟨f, hf⟩ : ∃ f, mr + 1 - a = f + 1 := ⟨mr - a, by omega⟩
    rw [hf]
    simp [wrFrom, hok]
  | succ m ih =>
    intro a last hfail hok hle
    obtain ⟨e, he, hw⟩ := hfail 0 (Nat.succ_pos m)
    rw [Nat.add_zero] at he
    obtain ⟨f, hf⟩ : ∃ f, mr + 1 - a = f + 1 := ⟨mr - a, by omega⟩
    have hfail' : ∀ k, k < m → ∃ e2, op (a + 1 + k) = .error e2 ∧ wrNonRetryable e2 = false := by
      intro k hk
      have h2 := hfail (k + 1) (by omega)
      rwa [show a + (k + 1) = a + 1 + k by omega] at h2
    have hok' : op (a + 1 + m) = .ok v := by
      rwa [show a + (m + 1) = a + 1 + m by omega] at hok
    have hih := ih (a + 1) e hfail' hok' (by omega)
    rw [show mr + 1 - (a + 1) = f by omega] at hih
    rw [hf]
    simp only [wrFrom, he, hw, Bool.false_eq_true, if_false,
      if_pos (show a < mr by omega)]
    exact ⟨hih.1, by rw [hih.2]⟩

end Retry

/-- C1: for both retry wrappers, an operation that fails N times with a
retryable error and then succeeds yields the success value after exactly
N + 1 invocations provided N is below the attempt cap, and a non-retryable
error on the first call is propagated unchanged after exactly 1 invocation
(`withRetry` of geminiService.ts classifies only aborts and auth failures
as non-retryable; `retryWithBackoff` of part_001 retries rate-limit, server
and network errors). -/
theorem retry_wrapper_invocation_contract :
    (∀ (T : Type) (op : Nat → Except JsError T) (mr N : Nat) (ib : ℚ)
        (jit : Nat → ℚ) (v : T),
      N < mr + 1 →
      (∀ k, k < N → ∃ e, op k = .error e ∧ Retry.isRetryable e = true) →
      op N = .ok v →
      (Retry.retryWithBackoff op mr ib jit).result = .ok v ∧
      (Retry.retryWithBackoff op mr ib jit).calls = N + 1) ∧
    (∀ (T : Type) (op : Nat → Except JsError T) (mr : Nat) (ib : ℚ)
        (jit : Nat → ℚ) (e : JsError),
      op 0 = .error e → Retry.isRetryable e = false →
      (Retry.retryWithBackoff op mr ib jit).result = .error e ∧
      (Retry.retryWithBackoff op mr ib jit).calls = 1) ∧
    (∀ (T : Type) (op : Nat → Except JsError T) (mr N : Nat) (dm : ℚ) (v : T),
      N < mr + 1 →
      (∀ k, k < N → ∃ e, op k = .error e ∧ Retry.wrNonRetryable e = false) →
      op N = .ok v →
      (Retry.withRetry op mr dm).result = .ok v ∧
      (Retry.withRetry op mr dm).calls = N + 1) ∧
    (∀ (T : Type) (op : Nat → Except JsError T) (mr : Nat) (dm : ℚ) (e : JsError),
      op 0 = .error e → Retry.wrNonRetryable e = true →
      (Retry.withRetry op mr dm).result = .error e ∧
      (Retry.withRetry op mr dm).calls = 1) := by
  refine ⟨?_, ?_, ?_, ?_⟩
  · intro T op mr N ib jit v hN hfail hok
    have h := Retry.retryFrom_success op mr ib jit v N 0
      (by simpa using hfail) (by simpa using hok) (by omega)
    simpa [Retry.retryWithBackoff] using h
  · intro T op mr ib jit e he hr
    have hrl := Retry.isRateLimited_false_of_not_retryable hr
    constructor <;>
      simp [Retry.retryWithBackoff, Retry.retryFrom, he, hr, hrl]
  · intro T op mr N dm v hN hfail hok
    have h := Retry.wrFrom_success op mr dm v N 0 ⟨"Error", "null", none⟩
      (by simpa using hfail) (by simpa using hok) (by omega)
    simpa [Retry.withRetry] using h
  · intro T op mr dm e he hw
    constructor <;> simp [Retry.withRetry, Retry.wrFrom, he, hw]

/-- Witness for C1: a concrete operation failing twice with a server error
then succeeding, and a concrete operation failing with an auth error. -/
theorem retry_wrapper_invocation_contract_check :
    (2 < 3 + 1) ∧ testOpRWB 2 = .ok 7 ∧ testOpAuth 0 = .error authErr ∧
    Retry.isRetryable authErr = false ∧
    ((Retry.retryWithBackoff testOpRWB 3 1000 (fun _ => 250)).result = .ok 7 ∧
      (Retry.retryWithBackoff testOpRWB 3 1000 (fun _ => 250)).calls = 3) ∧
    ((Retry.retryWithBackoff testOpAuth 3 1000 (fun _ => 250)).result = .error authErr ∧
      (Retry.retryWithBackoff testOpAuth 3 1000 (fun _ => 250)).calls = 1) := by
  refine ⟨by norm_num, rfl, rfl, by decide, ?_, ?_⟩
  · exact retry_wrapper_invocation_contract.1 Nat testOpRWB 3 2 1000 (fun _ => 250) 7
      (by norm_num)
      (fun k hk => ⟨serverErr, by simp [testOpRWB, hk], by decide⟩)
      rfl
  · exact retry_wrapper_invocation_contract.2.1 Nat testOpAuth 3 1000 (fun _ => 250)
      authErr rfl (by decide)

namespace Retry

theorem retryFrom_delays_spec {T : Type} (op : Nat → Except JsError T) (mr : Nat)
    (ib : ℚ) (jit : Nat → ℚ) :
    ∀ (fuel a : Nat), ∀ d ∈ (retryFrom op mr ib jit a fuel).delays,
      a ≤ d.attempt ∧ d.backoffMs = ib * 2 ^ d.attempt + jit d.attempt ∧
      (d.rateLimited = true → 5000 ≤ d.waitTime) := by
  intro fuel
  induction fuel with
  | zero => intro a d hd; simp [retryFrom] at hd
  | succ f ih =>
    intro a d hd
    simp only [retryFrom] at hd
    cases hop : op a with
    | ok v => rw [hop] at hd; simp at hd
    | error e =>
      rw [hop] at hd
      dsimp only at hd
      by_cases hcond : (!isRetryable e || a == mr) = true
      · rw [if_pos hcond] at hd
        by_cases hrl : isRateLimited e = true
        · rw [if_pos hrl] at hd; simp at hd
        · rw [if_neg hrl] at hd; simp at hd
      · rw [if_neg hcond] at hd
        dsimp only at hd
        rcases List.mem_cons.mp hd with rfl | hd'
        · refine ⟨le_refl _, rfl, ?_⟩
          intro hrl
          dsimp only at hrl ⊢
          rw [hrl, if_pos rfl]
          exact le_max_right _ _
        · obtain ⟨h1, h2, h3⟩ := ih (a + 1) d hd'
          exact ⟨by omega, h2, h3⟩

theorem retryFrom_delays_attempts {T : Type} (op : Nat → Except JsError T) (mr : Nat)
    (ib : ℚ) (jit : Nat → ℚ) :
    ∀ (fuel a : Nat),
      ((retryFrom op mr ib jit a fuel).delays).map DelayEntry.attempt
        = List.range' a ((retryFrom op mr ib jit a fuel).delays).length := by
  intro fuel
  induction fuel with
  | zero => intro a; simp [retryFrom]
  | succ f ih =>
    intro a
    simp only [retryFrom]
    cases hop : op a with
    | ok v => simp
    | error e =>
      dsimp only
      by_cases hcond : (!isRetryable e || a == mr) = true
      · rw [if_pos hcond]
        by_cases hrl : isRateLimited e = true
        · rw [if_pos hrl]; simp
        · rw [if_neg hrl]; simp
      · rw [if_neg hcond]
        dsimp only
        simp only [List.map_cons, List.length_cons, List.range'_succ]
        rw [ih (a + 1)]

theorem retryFrom_delays_chain {T : Type} (op : Nat → Except JsError T) (mr : Nat)
    (ib : ℚ) (jit : Nat → ℚ) :
    ∀ (fuel a : Nat),
      List.Chain' (fun d1 d2 => d1.attempt ≤ d2.attempt)
        (retryFrom op mr ib jit a fuel).delays := by
  intro fuel
  induction fuel with
  | zero => intro a; simp [retryFrom]
  | succ f ih =>
    intro a
    simp only [retryFrom]
    cases hop : op a with
    | ok v => simp
    | error e =>
      dsimp only
      by_cases hcond : (!isRetryable e || a == mr) = true
      · rw [if_pos hcond]
        by_cases hrl : isRateLimited e = true
        · rw [if_pos hrl]; simp
        · rw [if_neg hrl]; simp
      · rw [if_neg hcond]
        dsimp only
        refine List.chain'_cons'.mpr ⟨?_, ih (a + 1)⟩
        intro y hy
        have hy' : y ∈ (retryFrom op mr ib jit (a + 1) f).delays :=
          List.mem_of_mem_head? hy
        have := (retryFrom_delays_spec op mr ib jit f (a + 1) y hy').1
        dsimp only
        omega

theorem wrFrom_delays_linear {T : Type} (op : Nat → Except JsError T) (mr : Nat)
    (dm : ℚ) :
    ∀ (fuel a : Nat) (last : JsError), ∀ d ∈ (wrFrom op mr dm last a fuel).delays,
      d.delay = dm * (d.attempt + 1) := by
  intro fuel
  induction fuel with
  | zero => intro a last d hd; simp [wrFrom] at hd
  | succ f ih =>
    intro a last d hd
    simp only [wrFrom] at hd
    cases hop : op a with
    | ok v => rw [hop] at hd; simp at hd
    | error e =>
      rw [hop] at hd
      dsimp only at hd
      by_cases h1 : wrNonRetryable e = true
      · rw [if_pos h1] at hd; simp at hd
      · rw [if_neg h1] at hd
        by_cases h2 : a < mr
        · rw [if_pos h2] at hd
          rcases List.mem_cons.mp hd with rfl | hd'
          · rfl
          · exact ih (a + 1) e d hd'
        · rw [if_neg h2] at hd
          exact ih (a + 1) e d hd

end Retry

/-- C2 (amended): for `retryWithBackoff` (part_001) the sleeps of a run are
taken at consecutive attempts 0, 1, 2, …, each computed backoff equals
`initialBackoff * 2^attempt + jitter`, the delays excluding jitter are
non-decreasing, and every sleep after a rate-limited failure is at least
5000 ms; the `withRetry` variant of geminiService.ts instead sleeps the
linear `delayMs * (attempt + 1)` with no rate-limit floor. -/
theorem backoff_delay_formula :
    (∀ (T : Type) (op : Nat → Except JsError T) (mr : Nat) (ib : ℚ)
        (jit : Nat → ℚ),
      ∀ d ∈ (Retry.retryWithBackoff op mr ib jit).delays,
        d.backoffMs = ib * 2 ^ d.attempt + jit d.attempt ∧
        (d.rateLimited = true → 5000 ≤ d.waitTime)) ∧
    (∀ (T : Type) (op : Nat → Except JsError T) (mr : Nat) (ib : ℚ)
        (jit : Nat → ℚ),
      ((Retry.retryWithBackoff op mr ib jit).delays).map Retry.DelayEntry.attempt
        = List.range ((Retry.retryWithBackoff op mr ib jit).delays).length) ∧
    (∀ (T : Type) (op : Nat → Except JsError T) (mr : Nat) (ib : ℚ)
        (jit : Nat → ℚ),
      0 ≤ ib →
      List.Chain' (· ≤ ·)
        (((Retry.retryWithBackoff op mr ib jit).delays).map
          (fun d => ib * 2 ^ d.attempt))) ∧
    (∀ (T : Type) (op : Nat → Except JsError T) (mr : Nat) (dm : ℚ),
      ∀ d ∈ (Retry.withRetry op mr dm).delays,
        d.delay = dm * (d.attempt + 1)) := by
  refine ⟨?_, ?_, ?_, ?_⟩
  · intro T op mr ib jit d hd
    exact (Retry.retryFrom_delays_spec op mr ib jit (mr + 1) 0 d hd).2
  · intro T op mr ib jit
    have h := Retry.retryFrom_delays_attempts op mr ib jit (mr + 1) 0
    rw [List.range_eq_range']
    exact h
  · intro T op mr ib jit hib
    have hch := Retry.retryFrom_delays_chain op mr ib jit (mr + 1) 0
    rw [List.chain'_map]
    refine hch.imp ?_
    intro d1 d2 h
    exact mul_le_mul_of_nonneg_left
      (pow_le_pow_right₀ (by norm_num : (1 : ℚ) ≤ 2) h) hib
  · intro T op mr dm d hd
    exact Retry.wrFrom_delays_linear op mr dm (mr + 1) 0 _ d hd

/-- C2 counterexample: the `withRetry` wrapper of geminiService.ts, run
against an operation that always fails with a 429 rate-limit error, sleeps
1000 ms and 2000 ms — a rate-limited failure is followed by a sleep below the
5000 ms floor (and the sleeps are linear, not `baseDelay * 2^attempt`). -/
theorem withRetry_429_below_floor :
    (Retry.withRetry testOp429 2 1000).delays = [⟨0, 1000⟩, ⟨1, 2000⟩] ∧
    Retry.isRateLimited err429 = true ∧ ¬((5000 : ℚ) ≤ 1000) := by
  have h : Retry.wrNonRetryable err429 = false := by decide
  exact ⟨by norm_num [Retry.withRetry, Retry.wrFrom, testOp429, h],
    by decide, by norm_num⟩

/-- Witness for C2 at a concrete rate-limited run. -/
theorem backoff_delay_formula_check :
    (0 : ℚ) ≤ 1000 ∧
    (⟨0, true, 1000, 5000⟩ : Retry.DelayEntry) ∈
      (Retry.retryWithBackoff testOp429 1 1000 (fun _ => 0)).delays ∧
    ((⟨0, true, 1000, 5000⟩ : Retry.DelayEntry).backoffMs
        = 1000 * 2 ^ (⟨0, true, 1000, 5000⟩ : Retry.DelayEntry).attempt + 0 ∧
      ((⟨0, true, 1000, 5000⟩ : Retry.DelayEntry).rateLimited = true →
        5000 ≤ (⟨0, true, 1000, 5000⟩ : Retry.DelayEntry).waitTime)) ∧
    List.Chain' (· ≤ ·)
      (((Retry.retryWithBackoff testOp429 1 1000 (fun _ => 0)).delays).map
        (fun d => (1000 : ℚ) * 2 ^ d.attempt)) := by
  have hrl : Retry.isRateLimited err429 = true := by decide
  have hrt : Retry.isRetryable err429 = true := by decide
  have hmem : (⟨0, true, 1000, 5000⟩ : Retry.DelayEntry) ∈
      (Retry.retryWithBackoff testOp429 1 1000 (fun _ => 0)).delays := by
    norm_num [Retry.retryWithBackoff, Retry.retryFrom, testOp429, hrl, hrt, max_def]
  refine ⟨by norm_num, hmem, ?_,
    backoff_delay_formula.2.2.1 Nat testOp429 1 1000 (fun _ => 0) (by norm_num)⟩
  have h1 := backoff_delay_formula.1 Nat testOp429 1 1000 (fun _ => 0) _ hmem
  exact h1

/-- C6: in both `generateAnswer` document filters, a restricted document never
appears in the relevant set for the PUBLIC role, and for the ADMIN role the
restricted flag never excludes a document — every keyword-matching document of
the input list appears. -/
theorem restricted_document_role_gate :
    (∀ (q : String) (docs : List Document) (d : Document),
      d ∈ relevantDocsGS q Role.PUBLIC docs → d.isRestricted = false) ∧
    (∀ (q : String) (docs : List Document) (d : Document),
      d ∈ docs → docMatchGS q d = true → d ∈ relevantDocsGS q Role.ADMIN docs) ∧
    (∀ (q : String) (docs : List Document) (d : Document),
      d ∈ relevantDocsP1 q Role.PUBLIC docs → d.isRestricted = false) ∧
    (∀ (q : String) (docs : List Document) (d : Document),
      d ∈ docs → docMatchP1 q d = true → d ∈ relevantDocsP1 q Role.ADMIN docs) := by
  refine ⟨?_, ?_, ?_, ?_⟩
  · intro q docs d hd
    have hp := List.of_mem_filter hd
    by_contra hr
    rw [Bool.not_eq_false] at hr
    simp [hr] at hp
  · intro q docs d hd hmatch
    refine List.mem_filter.mpr ⟨hd, ?_⟩
    simp [hmatch]
  · intro q docs d hd
    have hp := List.of_mem_filter hd
    by_contra hr
    rw [Bool.not_eq_false] at hr
    simp [hr] at hp
  · intro q docs d hd hmatch
    refine List.mem_filter.mpr ⟨hd, ?_⟩
    simp [hmatch]

/-- Witness for C6 at the spec's end-to-end example documents. -/
theorem restricted_document_role_gate_check :
    usnDoc ∈ [feesDoc, usnDoc] ∧ docMatchGS "usn list" usnDoc = true ∧
    usnDoc ∈ relevantDocsGS "usn list" Role.ADMIN [feesDoc, usnDoc] :=
  ⟨by simp, by decide,
    restricted_document_role_gate.2.1 "usn list" [feesDoc, usnDoc] usnDoc
      (by simp) (by decide)⟩

theorem gsErrorMessage_cases (e : JsError) :
    gsErrorMessage e = "API key error. Please check your configuration." ∨
    gsErrorMessage e = "Too many requests. Please wait a moment and try again." ∨
    gsErrorMessage e = "Network error. Please check your internet connection." ∨
    gsErrorMessage e = "An error occurred while processing your request." := by
  unfold gsErrorMessage
  split
  · exact Or.inl rfl
  · split
    · exact Or.inr (Or.inl rfl)
    · split
      · exact Or.inr (Or.inr (Or.inl rfl))
      · exact Or.inr (Or.inr (Or.inr rfl))

theorem p1ErrorMessage_cases (e : JsError) :
    p1ErrorMessage e
        = "**Rate Limit Reached**: The API is currently busy. Please wait a moment and try again." ∨
    p1ErrorMessage e = "**Configuration Error**: The API key is not properly configured." ∨
    p1ErrorMessage e
        = "**Network Error**: Unable to connect to the server. Please check your internet connection." ∨
    p1ErrorMessage e
        = "**Server Error**: The Gemini service is temporarily unavailable. Please try again later." ∨
    p1ErrorMessage e
        = "**Error**: " ++ e.message ++ "\n\n*If this persists, please refresh the page and try again.*" := by
  unfold p1ErrorMessage
  split
  · exact Or.inl rfl
  · split
    · exact Or.inr (Or.inl rfl)
    · split
      · exact Or.inr (Or.inr (Or.inl rfl))
      · split
        · exact Or.inr (Or.inr (Or.inr (Or.inl rfl)))
        · exact Or.inr (Or.inr (Or.inr (Or.inr rfl)))

/-- C7: neither `generateAnswer` variant lets an exception reach its caller —
every run yields an `.ok` result — and when the underlying generation call
fails, the result carries one of the fixed user-facing messages chosen by
classifying the error (cancel / auth / rate limit / network / server /
generic) together with an empty citations list. -/
theorem generateAnswer_error_containment :
    (∀ (q : String) (role : Role) (docs : List Document)
        (apiResult : Except JsError ApiResponse) (ab : Bool),
      ∃ r, generateAnswerGS q role docs apiResult ab = .ok r) ∧
    (∀ (q : String) (role : Role) (docs : List Document) (e : JsError) (ab : Bool),
      ∃ r, generateAnswerGS q role docs (.error e) ab = .ok r ∧
        r.citations = [] ∧ r.needsWebSearchApproval = false ∧
        (r.text = "Request was cancelled." ∨
          r.text = "⚠️ **Error**\n\nAPI key error. Please check your configuration." ∨
          r.text = "⚠️ **Error**\n\nToo many requests. Please wait a moment and try again." ∨
          r.text = "⚠️ **Error**\n\nNetwork error. Please check your internet connection." ∨
          r.text = "⚠️ **Error**\n\nAn error occurred while processing your request.")) ∧
    (∀ (q : String) (role : Role) (docs : List Document)
        (apiResult : Except JsError ApiResponse),
      ∃ r, generateAnswerP1 q role docs apiResult = .ok r) ∧
    (∀ (q : String) (role : Role) (docs : List Document) (e : JsError),
      ∃ r, generateAnswerP1 q role docs (.error e) = .ok r ∧
        r.citations = [] ∧ r.needsWebSearchApproval = false ∧
        (r.text = "**Rate Limit Reached**: The API is currently busy. Please wait a moment and try again." ∨
          r.text = "**Configuration Error**: The API key is not properly configured." ∨
          r.text = "**Network Error**: Unable to connect to the server. Please check your internet connection." ∨
          r.text = "**Server Error**: The Gemini service is temporarily unavailable. Please try again later." ∨
          r.text = "**Error**: " ++ e.message ++ "\n\n*If this persists, please refresh the page and try again.*")) := by
  refine ⟨?_, ?_, ?_, ?_⟩
  · intro q role docs apiResult ab
    cases apiResult with
    | ok resp =>
      cases ab with
      | false => exact ⟨_, rfl⟩
      | true =>
        refine ⟨⟨"Request was cancelled.", [], false⟩, ?_⟩
        simp [generateAnswerGS]
    | error e =>
      by_cases hcanc : (e.name == "AbortError" || e.message == "Request was cancelled") = true
      · refine ⟨⟨"Request was cancelled.", [], false⟩, ?_⟩
        simp [generateAnswerGS, hcanc]
      · refine ⟨⟨"⚠️ **Error**\n\n" ++ gsErrorMessage e, [], false⟩, ?_⟩
        simp [generateAnswerGS, hcanc]
  · intro q role docs e ab
    by_cases hcanc : (e.name == "AbortError" || e.message == "Request was cancelled") = true
    · refine ⟨⟨"Request was cancelled.", [], false⟩, ?_, rfl, rfl, Or.inl rfl⟩
      simp [generateAnswerGS, hcanc]
    · refine ⟨⟨"⚠️ **Error**\n\n" ++ gsErrorMessage e, [], false⟩, ?_, rfl, rfl, ?_⟩
      · simp [generateAnswerGS, hcanc]
      · rcases gsErrorMessage_cases e with h | h | h | h
        · exact Or.inr (Or.inl (by rw [h]; rfl))
        · exact Or.inr (Or.inr (Or.inl (by rw [h]; rfl)))
        · exact Or.inr (Or.inr (Or.inr (Or.inl (by rw [h]; rfl))))
        · exact Or.inr (Or.inr (Or.inr (Or.inr (by rw [h]; rfl))))
  · intro q role docs apiResult
    cases apiResult with
    | ok resp => exact ⟨_, rfl⟩
    | error e => exact ⟨_, rfl⟩
  · intro q role docs e
    refine ⟨⟨p1ErrorMessage e, [], false⟩, rfl, rfl, rfl, ?_⟩
    exact p1ErrorMessage_cases e

/-- C9 counterexample: the second geminiService.ts `generateAnswer` variant
sends the entire 21-message history (22 request items, the oldest message
included), although the claim allows at most the most recent 20 plus the
query. -/
theorem full_history_variant_sends_all :
    hist21.length = 21 ∧
    (contentsGS2 hist21 "q").length = 22 ∧
    (contentsGS2 hist21 "q").head? = some (toContent ⟨"user", "m0"⟩) := by
  refine ⟨by simp [hist21], by simp [contentsGS2, hist21], by simp [contentsGS2, hist21]⟩

/-- C9 (amended): the main geminiService.ts `generateAnswer` sends only the
most recent 10 history messages (part_001: 20), in original order, followed by
the current query — older messages are never sent — while the second
geminiService.ts variant sends the whole history. -/
theorem history_window_suffix :
    (∀ (history : List ChatMessage) (query : String),
      ∃ old kept, history = old ++ kept ∧ kept.length ≤ 10 ∧
        (10 ≤ history.length → kept.length = 10) ∧
        contentsGS history query = kept.map toContent ++ [queryItem query]) ∧
    (∀ (history : List ChatMessage) (query : String),
      ∃ old kept, history = old ++ kept ∧ kept.length ≤ 20 ∧
        (20 ≤ history.length → kept.length = 20) ∧
        contentsP1 history query = kept.map toContent ++ [queryItem query]) ∧
    (∀ (history : List ChatMessage) (query : String),
      contentsGS2 history query = history.map toContent ++ [queryItem query]) := by
  refine ⟨?_, ?_, fun h q => rfl⟩
  · intro history query
    refine ⟨history.take (history.length - 10), history.drop (history.length - 10),
      (List.take_append_drop _ _).symm, ?_, ?_, rfl⟩
    · simp only [List.length_drop]; omega
    · intro h; simp only [List.length_drop]; omega
  · intro history query
    refine ⟨history.take (history.length - 20), history.drop (history.length - 20),
      (List.take_append_drop _ _).symm, ?_, ?_, rfl⟩
    · simp only [List.length_drop]; omega
    · intro h; simp only [List.length_drop]; omega

/-- Witness for C9 at the concrete 21-message history. -/
theorem history_window_suffix_check :
    ∃ old kept, hist21 = old ++ kept ∧ kept.length ≤ 10 ∧
      (10 ≤ hist21.length → kept.length = 10) ∧
      contentsGS hist21 "q" = kept.map toContent ++ [queryItem "q"] :=
  history_window_suffix.1 hist21 "q"

theorem splitOnPred_sep_not_mem (p : Char → Bool) :
    ∀ (l : List Char), ∀ t ∈ splitOnPred p l, ∀ c ∈ t, p c = false := by
  intro l
  induction l with
  | nil =>
    intro t ht c hc
    simp only [splitOnPred, List.mem_singleton] at ht
    subst ht
    simp at hc
  | cons x xs ih =>
    intro t ht c hc
    simp only [splitOnPred] at ht
    by_cases hx : p x = true
    · rw [if_pos hx] at ht
      rcases List.mem_cons.mp ht with rfl | ht'
      · simp at hc
      · exact ih t ht' c hc
    · rw [if_neg hx] at ht
      cases hs : splitOnPred p xs with
      | nil =>
        rw [hs] at ht
        simp only [List.mem_singleton] at ht
        subst ht
        rcases List.mem_singleton.mp hc with rfl
        exact Bool.eq_false_iff.mpr hx
      | cons t0 ts =>
        rw [hs] at ht
        rcases List.mem_cons.mp ht with rfl | ht'
        · rcases List.mem_cons.mp hc with rfl | hc'
          · exact Bool.eq_false_iff.mpr hx
          · refine ih t0 ?_ c hc'
            rw [hs]
            exact List.mem_cons_self _ _
        · refine ih t ?_ c hc
          rw [hs]
          exact List.mem_cons_of_mem _ ht'

theorem takeToSep {α : Type} (c : α) :
    ∀ (t l₁ l₂ : List α), c ∉ t → t <+: l₁ ++ c :: l₂ → t <+: l₁ := by
  intro t
  induction t with
  | nil => intro l₁ l₂ _ _; exact List.nil_prefix
  | cons x t' ih =>
    intro l₁ l₂ hc h
    cases l₁ with
    | nil =>
      rw [List.nil_append] at h
      have hxc := (List.cons_prefix_cons.mp h).1
      exact absurd (hxc ▸ List.mem_cons_self x t') hc
    | cons y l₁' =>
      rw [List.cons_append] at h
      obtain ⟨hxy, h'⟩ := List.cons_prefix_cons.mp h
      have hc' : c ∉ t' := fun hm => hc (List.mem_cons_of_mem _ hm)
      exact List.cons_prefix_cons.mpr ⟨hxy, ih l₁' l₂ hc' h'⟩

theorem infixSplitAtSep {α : Type} (c : α) :
    ∀ (l₁ l₂ t : List α), c ∉ t →
      (t <:+: l₁ ++ c :: l₂ ↔ t <:+: l₁ ∨ t <:+: l₂) := by
  intro l₁
  induction l₁ with
  | nil =>
    intro l₂ t hc
    rw [List.nil_append]
    constructor
    · intro h
      rcases List.infix_cons_iff.mp h with hp | hi
      · cases t with
        | nil => exact Or.inl List.nil_infix
        | cons x t' =>
          have hxc := (List.cons_prefix_cons.mp hp).1
          exact absurd (hxc ▸ List.mem_cons_self x t') hc
      · exact Or.inr hi
    · rintro (h | h)
      · rw [List.infix_nil.mp h]
        exact List.nil_infix
      · exact List.infix_cons h
  | cons a l₁' ih =>
    intro l₂ t hc
    rw [List.cons_append]
    constructor
    · intro h
      rcases List.infix_cons_iff.mp h with hp | hi
      · cases t with
        | nil => exact Or.inl List.nil_infix
        | cons x t' =>
          obtain ⟨hxa, h'⟩ := List.cons_prefix_cons.mp hp
          have hc' : c ∉ t' := fun hm => hc (List.mem_cons_of_mem _ hm)
          have hp' : t' <+: l₁' := takeToSep c t' l₁' l₂ hc' h'
          exact Or.inl (List.IsPrefix.isInfix (List.cons_prefix_cons.mpr ⟨hxa, hp'⟩))
      · rcases (ih l₂ t hc).mp hi with h1 | h2
        · exact Or.inl (List.infix_cons h1)
        · exact Or.inr h2
    · rintro (h | h)
      · refine h.trans (List.IsPrefix.isInfix ?_)
        exact List.cons_prefix_cons.mpr ⟨rfl, List.prefix_append _ _⟩
      · refine h.trans (List.IsSuffix.isInfix ?_)
        refine (List.suffix_cons c l₂).trans ?_
        exact (List.suffix_append _ _).trans (List.suffix_cons a _)

theorem lowerConcatData (a b : String) :
    (strLower (a ++ " " ++ b)).data
      = (strLower a).data ++ ' ' :: (strLower b).data := by
  have hsp : Char.toLower ' ' = ' ' := rfl
  simp [strLower, String.data_append, hsp]

theorem strContains_concat (t c k : String) (hk : ' ' ∉ k.data) :
    strContains (strLower (t ++ " " ++ c)) k
      = (strContains (strLower t) k || strContains (strLower c) k) := by
  simp only [strContains, lowerConcatData]
  rw [← Bool.decide_or, decide_eq_decide]
  exact infixSplitAtSep ' ' (strLower t).data (strLower c).data k.data hk

theorem queryKeywords_no_space (q : String) :
    ∀ k ∈ queryKeywords q, ' ' ∉ k.data := by
  intro k hk
  simp only [queryKeywords, jsSplitSpace, List.mem_filter] at hk
  obtain ⟨hk1, -⟩ := hk
  obtain ⟨t, ht, rfl⟩ := List.mem_map.mp hk1
  intro hsp
  have hsp' : ' ' ∈ t := hsp
  have hfalse := splitOnPred_sep_not_mem (fun ch => ch == ' ') _ t ht ' ' hsp'
  simp at hfalse

/-- C5 counterexample: on the query `"abc\ndef"` (one space-separated token
containing a newline) and a document whose content contains `abc`, the code's
search returns nothing while the claimed whitespace-token search returns the
document. -/
theorem search_whitespace_token_mismatch :
    searchDocuments wsQuery [wsDoc] = [] ∧
    specSearchWhitespace wsQuery [wsDoc] = [wsDoc] ∧
    searchDocuments wsQuery [wsDoc] ≠ specSearchWhitespace wsQuery [wsDoc] := by
  exact ⟨by decide, by decide, by decide⟩

/-- C5 (amended): the keyword search returns exactly the subset of documents
whose lower-cased title or content contains at least one space-separated
(U+0020) token of the query of length strictly greater than 2, matched
case-insensitively as a substring, and returns the empty list when no token
qualifies. -/
theorem search_filter_title_or_content :
    (∀ (q : String) (docs : List Document),
      searchDocuments q docs = docs.filter (specMatchSpace q)) ∧
    (∀ (q : String) (docs : List Document),
      queryKeywords q = [] → searchDocuments q docs = []) := by
  constructor
  · intro q docs
    unfold searchDocuments
    apply List.filter_congr
    intro d _
    unfold specMatchSpace
    rw [Bool.eq_iff_iff]
    simp only [List.any_eq_true]
    constructor
    · rintro ⟨k, hk, hc⟩
      refine ⟨k, hk, ?_⟩
      rwa [strContains_concat d.title d.content k (queryKeywords_no_space q k hk)] at hc
    · rintro ⟨k, hk, hc⟩
      refine ⟨k, hk, ?_⟩
      rwa [strContains_concat d.title d.content k (queryKeywords_no_space q k hk)]
  · intro q docs h
    unfold searchDocuments
    simp [h]

/-- Witness for C5 at concrete queries and documents. -/
theorem search_filter_title_or_content_check :
    queryKeywords "ab" = [] ∧ searchDocuments "ab" [wsDoc] = [] ∧
    searchDocuments "fees hostel" [feesDoc, usnDoc]
      = List.filter (specMatchSpace "fees hostel") [feesDoc, usnDoc] :=
  ⟨by decide, search_filter_title_or_content.2 "ab" [wsDoc] (by decide),
    search_filter_title_or_content.1 "fees hostel" [feesDoc, usnDoc]⟩
